import Mathlib

/-!
URL shortener: short-code allocation and redirection.

A shallow embedding of `internal/shortener` (`handler.go`, `repository.go`, `model.go`).

* Bytes are `Fin 256`; Go's `int64` arithmetic is `Int` reduced by `wrapInt64`.
* `time.Time` is an instant counted in nanoseconds; `Add` and `After` act on that count
  (wall-clock arithmetic, exact for every instant and duration within a few centuries of now).
* The random source behind `rand.Read` is a tape of bytes: a read of `n` bytes takes the next
  `n` bytes off the tape, and fails when the tape cannot fill the buffer.
* The store behind `Repository` is a state type `σ` with the three operations the handler calls.
* Every call a handler makes to the random source or the store is appended to a trace, and the
  click increment that `redirect` starts in a goroutine is recorded as dispatched, not executed.
* `c.Redirect` is `net/http.Redirect`: the `Location` header is the target with every byte from
  `0x80` up percent-escaped; what the library makes of a target without a scheme (joined with
  the directory of the request path and cleaned) is a parameter, `resolve`.
-/

namespace Shortener

/-! ## Constants (`handler.go`) -/

abbrev Byte := Fin 256

def shortCodeLength : Nat := 5

def alphabet : String := "abcdefghijklmnopqrstuvwxyzABCDEFGHIJKLMNOPQRSTUVWXYZ0123456789"

/-- Go's `len(alphabet)`: the length of the string constant in bytes. -/
def alphabetLen : Nat := alphabet.utf8ByteSize

/-- Go's `alphabet[i]`: the byte at index `i` of the (ASCII) string constant. -/
def alphabetAt (i : Nat) : Char := alphabet.toList.getD i '\x00'

/-! ## Time (`time.Time`, `time.Duration`) -/

/-- An instant, as nanoseconds since the Unix epoch. -/
structure Time where
  unixNano : Int
deriving DecidableEq, Repr

/-- Wrap an integer to the signed 64-bit range (Go's `int64` overflow behaviour). -/
def wrapInt64 (x : Int) : Int := (x + 2 ^ 63) % 2 ^ 64 - 2 ^ 63

/-- The constant `time.Second`, in nanoseconds. -/
def Second : Int := 1000000000

/-- Go's `time.Duration(s) * time.Second`: an `int64` product. -/
def durationSeconds (s : Int) : Int := wrapInt64 (s * Second)

/-- Go's `t.Add(d)`. -/
def Time.Add (t : Time) (d : Int) : Time := ⟨t.unixNano + d⟩

/-- Go's `t.After(u)`: `t` is strictly later than `u`. -/
def Time.After (t u : Time) : Bool := decide (u.unixNano < t.unixNano)

/-- The zero value of `time.Time` (January 1, year 1, 00:00 UTC). -/
def Time.zero : Time := ⟨-62135596800 * 1000000000⟩

/-! ## Model (`model.go`) -/

structure URL where
  ID : Nat
  ShortCode : String
  OriginalURL : String
  CreatedAt : Time
  UpdatedAt : Time
  ExpiresAt : Option Time
  ClickCount : Int
deriving DecidableEq, Repr

/-! ## Errors and repository (`repository.go`) -/

/-- The errors the store can hand back: `ErrNotFound`, a `*pgconn.PgError` with its SQLSTATE
code, or anything else. -/
inductive DBError where
  | notFound
  | pg (code : String) (msg : String)
  | other (msg : String)
deriving DecidableEq, Repr

/-- Go's `err.Error()`. -/
def DBError.Error : DBError → String
  | .notFound => "url not found"
  | .pg _ msg => msg
  | .other msg => msg

def IsUniqueViolation : DBError → Bool
  | .pg code _ => code == "23505"
  | _ => false

/-- The three store operations the handlers call, over a store state `σ`. `Create` returns the
error (or none) and the next state; `IncrementClick` likewise; `GetByShortCode` only reads.
What `Create` writes back into `*u` (the id, the store-managed timestamps, any value the
store returns for a column) is not modelled: `u` is read afterwards as it was handed over. -/
structure Repository (σ : Type) where
  Create : σ → URL → Option DBError × σ
  GetByShortCode : σ → String → Except DBError URL
  IncrementClick : σ → Nat → Option DBError × σ

/-! ## Short-code generation (`generateShortCode`) -/

/-- Go's `rand.Read(b)` for a buffer of `n` bytes: the buffer is filled from the tape, or the
read fails and nothing usable is returned. -/
def randRead (tape : List Byte) (n : Nat) : Except String (List Byte) × List Byte :=
  if n ≤ tape.length then (.ok (tape.take n), tape.drop n)
  else (.error "unexpected EOF", [])

/-- Go's slice expression `b[lo:hi]`. -/
def slice (b : List Byte) (lo hi : Nat) : List Byte := (b.drop lo).take (hi - lo)

/-- Go's `binary.BigEndian.Uint16(b)`: `uint16(b[1]) | uint16(b[0])<<8`. -/
def Uint16 (b : List Byte) : Nat :=
  (b.getD 1 0).val ||| ((b.getD 0 0).val <<< 8) % 65536

/-- The body of the `for` loop of `generateShortCode` at index `i`. -/
def encodeStep (b : List Byte) (code : List Char) (i : Nat) : List Char :=
  let off := i * 2
  let val := Uint16 (slice b off (off + 2))
  code.set i (alphabetAt (val % alphabetLen))

/-- The part of `generateShortCode` after the read: fill `code` position by position. -/
def encode (b : List Byte) : String :=
  String.mk ((List.range shortCodeLength).foldl (encodeStep b)
    (List.replicate shortCodeLength '\x00'))

def generateShortCode (tape : List Byte) : Except String String × List Byte :=
  match randRead tape (shortCodeLength * 2) with
  | (.error e, tape1) => (.error e, tape1)
  | (.ok b, tape1) => (.ok (encode b), tape1)

/-! ## HTTP responses -/

structure createShortURLRequest where
  URL : String
  ExpiresInSeconds : Option Int
deriving DecidableEq, Repr

structure createShortURLResponse where
  ShortURL : String
  ShortCode : String
  OriginalURL : String
  ExpiresAt : Option Time
deriving DecidableEq, Repr

/-- What a handler writes as the response body: a `gin.H` with an `error` entry, the `gin.H` of
an expired link (`error` and `originalUrl`), the creation response, or the short HTML page of
`net/http.Redirect` for a `GET`, an anchor whose `href` is `url` (HTML-escaped). -/
inductive Body where
  | error (msg : String)
  | expired (msg : String) (originalUrl : String)
  | created (r : createShortURLResponse)
  | redirectPage (url : String)
deriving DecidableEq, Repr

structure Response where
  status : Nat
  body : Body
  location : Option String
deriving DecidableEq, Repr

def StatusCreated : Nat := 201
def StatusTemporaryRedirect : Nat := 307
def StatusBadRequest : Nat := 400
def StatusNotFound : Nat := 404
def StatusGone : Nat := 410
def StatusInternalServerError : Nat := 500

/-- Go's `c.JSON(status, gin.H{"error": msg})`. -/
def jsonError (status : Nat) (msg : String) : Response :=
  { status := status, body := .error msg, location := none }

/-! ## Redirects (`c.Redirect`, that is `net/http.Redirect`) -/

/-- The UTF-8 encoding of a character, as byte values: the bytes a Go string holds for it. -/
def utf8Bytes (c : Char) : List Nat :=
  let v := c.toNat
  if v < 0x80 then [v]
  else if v < 0x800 then [0xC0 + v / 0x40, 0x80 + v % 0x40]
  else if v < 0x10000 then [0xE0 + v / 0x1000, 0x80 + v / 0x40 % 0x40, 0x80 + v % 0x40]
  else [0xF0 + v / 0x40000, 0x80 + v / 0x1000 % 0x40, 0x80 + v / 0x40 % 0x40, 0x80 + v % 0x40]

/-- A hexadecimal digit in lower case, as `strconv.AppendInt(b, n, 16)` writes it. -/
def hexDigit (n : Nat) : Char := "0123456789abcdef".toList.getD n '0'

/-- One byte through `hexEscapeNonASCII`: a byte from `utf8.RuneSelf` (`0x80`) up becomes `%`
and its two hexadecimal digits, any other byte stays. -/
def escapeByte (b : Nat) : List Char :=
  if b ≥ 0x80 then ['%', hexDigit (b / 16), hexDigit (b % 16)] else [Char.ofNat b]

/-- Go's `hexEscapeNonASCII(s)` of `net/http`, byte by byte over the UTF-8 encoding of `s`. -/
def hexEscapeNonASCII (s : String) : String :=
  String.mk (s.toList.flatMap (fun c => (utf8Bytes c).flatMap escapeByte))

/-- The loop of `getScheme` of `net/url`, reduced to whether it returns a scheme: letters go
on; digits, `+`, `-` and `.` go on except in first position; `:` ends the scheme, which is there
unless the `:` comes first; any other byte, or the end of the string, means no scheme. `first`
says whether the position is the first one. -/
def getSchemeFrom : Bool → List Char → Bool
  | _, [] => false
  | first, c :: cs =>
    if c.isAlpha then getSchemeFrom false cs
    else if c.isDigit || c == '+' || c == '-' || c == '.' then
      (if first then false else getSchemeFrom false cs)
    else if c == ':' then !first
    else false

/-- Whether `url` starts with a scheme, so that `url.Parse(url)` either fails or yields a
non-empty `Scheme`. -/
def hasScheme (url : String) : Bool := getSchemeFrom true url.toList

/-- The target that `net/http.Redirect` goes on with: `url` itself unless `url.Parse` yields
neither scheme nor host; `resolve` stands for what the library does with a `url` without
scheme for the request being served (the parse, the join with the directory of the request
path, `path.Clean`). -/
def redirectTarget (resolve : String → String) (url : String) : String :=
  if hasScheme url then url else resolve url

/-- Go's `c.Redirect(code, location)` on a `GET` request that has no `Content-Type` set: the
`Location` header is the escaped target, the body the short HTML page linking to it. -/
def Redirect (resolve : String → String) (code : Nat) (location : String) : Response :=
  { status := code, body := .redirectPage (redirectTarget resolve location),
    location := some (hexEscapeNonASCII (redirectTarget resolve location)) }

/-! ## Handlers (`handler.go`) -/

/-- A call made by a handler, in the order the handlers make them. `incrementClick` records the
goroutine that `redirect` starts; the increment itself runs outside the handler. -/
inductive Event where
  | generateShortCode
  | create (u : URL)
  | getByShortCode (code : String)
  | incrementClick (id : Nat)
deriving DecidableEq, Repr

/-- What a handler runs against: the store, the random tape, and the calls made so far. -/
structure World (σ : Type) where
  db : σ
  tape : List Byte
  trace : List Event

structure Handler (σ : Type) where
  repo : Repository σ
  baseURL : String

def maxAttempts : Nat := 5

/-- The composite literal `URL{ShortCode: code, OriginalURL: req.URL, ExpiresAt: expiresAt}`;
the other fields take their zero values. -/
def newURL (req : createShortURLRequest) (expiresAt : Option Time) (code : String) : URL :=
  { ID := 0, ShortCode := code, OriginalURL := req.URL, CreatedAt := Time.zero,
    UpdatedAt := Time.zero, ExpiresAt := expiresAt, ClickCount := 0 }

/-- The zero value of `URL` (the declaration `var u URL`). -/
def zeroURL : URL :=
  { ID := 0, ShortCode := "", OriginalURL := "", CreatedAt := Time.zero,
    UpdatedAt := Time.zero, ExpiresAt := none, ClickCount := 0 }

/-- How the retry loop of `createShortURL` ends: by a `return` inside the loop, or by leaving the
loop (`break`, or the bound reached) with the current values of `err` and `u`. -/
inductive LoopExit where
  | returned (resp : Response)
  | done (err : Option DBError) (u : URL)
deriving DecidableEq, Repr

/-- The `for i := 0; i < maxAttempts; i++` loop of `createShortURL`, with the number of
iterations still to run as first argument. -/
def createLoop {σ : Type} (h : Handler σ) (req : createShortURLRequest)
    (expiresAt : Option Time) : Nat → Option DBError → URL → World σ → LoopExit × World σ
  | 0, err, u, w => (.done err u, w)
  | n + 1, _, _, w =>
    match generateShortCode w.tape with
    | (.error _, tape1) =>
      (.returned (jsonError StatusInternalServerError "failed to generate short code"),
        { w with tape := tape1, trace := w.trace ++ [.generateShortCode] })
    | (.ok code, tape1) =>
      let u := newURL req expiresAt code
      match h.repo.Create w.db u with
      | (none, db1) =>
        (.done none u,
          { db := db1, tape := tape1, trace := w.trace ++ [.generateShortCode, .create u] })
      | (some e, db1) =>
        let w1 : World σ :=
          { db := db1, tape := tape1, trace := w.trace ++ [.generateShortCode, .create u] }
        if IsUniqueViolation e then createLoop h req expiresAt n (some e) u w1
        else (.returned (jsonError StatusInternalServerError ("database error: " ++ e.Error)), w1)

/-- The expiry computed at the top of `createShortURL`. -/
def computeExpiresAt (now : Time) (expiresInSeconds : Option Int) : Option Time :=
  match expiresInSeconds with
  | some s => if s > 0 then some (now.Add (durationSeconds s)) else none
  | none => none

/-- The handler of `POST /api/v1/shorten`. `bind` is the outcome of `c.ShouldBindJSON(&req)`
(the JSON decoding and the `required,url` validation), `now` the value of `time.Now()`. -/
def createShortURL {σ : Type} (h : Handler σ) (bind : Except String createShortURLRequest)
    (now : Time) (w : World σ) : Response × World σ :=
  match bind with
  | .error e => (jsonError StatusBadRequest ("invalid request: " ++ e), w)
  | .ok req =>
    let expiresAt := computeExpiresAt now req.ExpiresInSeconds
    match createLoop h req expiresAt maxAttempts none zeroURL w with
    | (.returned resp, w1) => (resp, w1)
    | (.done (some _) _, w1) =>
      (jsonError StatusInternalServerError "could not allocate short code", w1)
    | (.done none u, w1) =>
      ({ status := StatusCreated,
         body := .created { ShortURL := h.baseURL ++ "/" ++ u.ShortCode, ShortCode := u.ShortCode,
                            OriginalURL := u.OriginalURL, ExpiresAt := u.ExpiresAt },
         location := none }, w1)

/-- The test `u.ExpiresAt != nil && time.Now().After(*u.ExpiresAt)` of `redirect`. -/
def isExpired (now : Time) (u : URL) : Bool :=
  match u.ExpiresAt with
  | some e => now.After e
  | none => false

/-- The handler of `GET /:code`. `code` is `c.Param("code")`, `now` the value of `time.Now()`,
`resolve` what `net/http.Redirect` makes of a target without scheme for this request. -/
def redirect {σ : Type} (h : Handler σ) (resolve : String → String) (code : String) (now : Time)
    (w : World σ) : Response × World σ :=
  if code.utf8ByteSize ≠ shortCodeLength then (jsonError StatusNotFound "not found", w)
  else
    let w1 : World σ := { w with trace := w.trace ++ [.getByShortCode code] }
    match h.repo.GetByShortCode w.db code with
    | .error e =>
      if e = .notFound then (jsonError StatusNotFound "not found", w1)
      else (jsonError StatusInternalServerError ("database error: " ++ e.Error), w1)
    | .ok u =>
      if isExpired now u then
        ({ status := StatusGone, body := .expired "link expired" u.OriginalURL,
           location := none }, w1)
      else
        (Redirect resolve StatusTemporaryRedirect u.OriginalURL,
          { w1 with trace := w1.trace ++ [.incrementClick u.ID] })

/-! ## A table with a unique index on `short_code` -/

/-- Insert into the table: a row with the same short code makes the insert fail with the
SQLSTATE of a unique violation; otherwise the row is appended with a fresh id. -/
def tableCreate (rows : List URL) (u : URL) : Option DBError × List URL :=
  if rows.any (fun r => r.ShortCode == u.ShortCode) then
    (some (.pg "23505" "duplicate key value violates unique constraint"), rows)
  else (none, rows ++ [{ u with ID := rows.length + 1 }])

/-- Look a short code up: the first matching row, or `ErrNotFound`. -/
def tableGet (rows : List URL) (code : String) : Except DBError URL :=
  match rows.find? (fun r => r.ShortCode == code) with
  | some u => .ok u
  | none => .error .notFound

/-- Add one to the click count of the row with the given id. -/
def tableIncrement (rows : List URL) (id : Nat) : Option DBError × List URL :=
  (none, rows.map (fun r => if r.ID = id then { r with ClickCount := r.ClickCount + 1 } else r))

/-- The store as a map from short code to row. -/
def tableRepo : Repository (List URL) :=
  { Create := tableCreate, GetByShortCode := tableGet, IncrementClick := tableIncrement }

/-- A store whose `Create` fails with `e` on every call. -/
def failingRepo (e : DBError) : Repository Unit :=
  { Create := fun s _ => (some e, s),
    GetByShortCode := fun _ _ => .error .notFound,
    IncrementClick := fun s _ => (none, s) }

/-! ## The attempts of one request -/

/-- The code generated on attempt `i` (counted from 0) of a request that starts with `tape`. -/
def nthCode (tape : List Byte) (i : Nat) : String :=
  encode ((tape.drop (shortCodeLength * 2 * i)).take (shortCodeLength * 2))

/-- The row handed to `Create` on attempt `i`. -/
def nthURL (req : createShortURLRequest) (expiresAt : Option Time) (tape : List Byte)
    (i : Nat) : URL :=
  newURL req expiresAt (nthCode tape i)

/-- The store state that attempt `i` finds, when every earlier attempt reached `Create`. -/
def dbBefore {σ : Type} (repo : Repository σ) (db : σ) (us : Nat → URL) : Nat → σ
  | 0 => db
  | i + 1 => (repo.Create (dbBefore repo db us i) (us i)).2

/-- The result of `Create` on attempt `i`. -/
def nthResult {σ : Type} (repo : Repository σ) (db : σ) (us : Nat → URL) (i : Nat) :
    Option DBError :=
  (repo.Create (dbBefore repo db us i) (us i)).1

/-- The calls of the `n` attempts `i, i+1, …` when each reaches `Create`: one code generation
and one `Create` per attempt. -/
def attemptEvents (us : Nat → URL) : Nat → Nat → List Event
  | _, 0 => []
  | i, n + 1 => Event.generateShortCode :: Event.create (us i) :: attemptEvents us (i + 1) n

/-- The world that attempt `i` of a request finds, when every earlier attempt reached `Create`:
`i` blocks of the tape are used up and the store has seen `i` calls. -/
def worldAt {σ : Type} (repo : Repository σ) (db : σ) (tape : List Byte) (us : Nat → URL)
    (trace : List Event) (i : Nat) : World σ :=
  { db := dbBefore repo db us i, tape := tape.drop (shortCodeLength * 2 * i), trace := trace }

/-- How many `Create` calls a trace holds. -/
def countCreate (t : List Event) : Nat :=
  (t.filter (fun e => match e with | .create _ => true | _ => false)).length

/-- How many code generations a trace holds. -/
def countGenerate (t : List Event) : Nat :=
  (t.filter (fun e => match e with | .generateShortCode => true | _ => false)).length

/-- How many store lookups a trace holds. -/
def countLookup (t : List Event) : Nat :=
  (t.filter (fun e => match e with | .getByShortCode _ => true | _ => false)).length

/-- The ids for which a click increment was dispatched, in order. -/
def dispatched (t : List Event) : List Nat :=
  t.filterMap (fun e => match e with | .incrementClick id => some id | _ => none)

/-! ## Sample data -/

/-- A tape of two blocks, which encode to `abcde` and `fghij`. -/
def sampleTape : List Byte :=
  [0, 0, 0, 1, 0, 2, 0, 3, 0, 4, 0, 5, 0, 6, 0, 7, 0, 8, 0, 9]

/-- A tape of five blocks, each of which encodes to `aaaaa`. -/
def zeroTape : List Byte := List.replicate 50 0

def sampleReq : createShortURLRequest :=
  { URL := "https://example.com", ExpiresInSeconds := none }

def sampleNow : Time := ⟨1762000000 * 1000000000⟩

/-- A table that already holds the code `abcde`. -/
def sampleRows : List URL :=
  [{ ID := 1, ShortCode := "abcde", OriginalURL := "https://go.dev", CreatedAt := Time.zero,
     UpdatedAt := Time.zero, ExpiresAt := none, ClickCount := 0 }]

/-- A table whose row `fghij` expired one second before `sampleNow`. -/
def expiredRows : List URL :=
  [{ ID := 7, ShortCode := "fghij", OriginalURL := "https://go.dev/doc", CreatedAt := Time.zero,
     UpdatedAt := Time.zero, ExpiresAt := some (sampleNow.Add (-1 * Second)), ClickCount := 3 }]

/-- A table whose row `fghij` holds a URL with a character outside ASCII and no expiry. -/
def cafeRows : List URL :=
  [{ ID := 9, ShortCode := "fghij", OriginalURL := "https://example.com/café",
     CreatedAt := Time.zero, UpdatedAt := Time.zero, ExpiresAt := none, ClickCount := 0 }]

def sampleHandler : Handler (List URL) :=
  { repo := tableRepo, baseURL := "http://localhost:8080" }

def failingHandler (e : DBError) : Handler Unit :=
  { repo := failingRepo e, baseURL := "http://localhost:8080" }

/-! ## Lemmas: the alphabet and the code of a full buffer -/

theorem alphabetLen_eq : alphabetLen = 62 := by decide

theorem alphabet_length : alphabet.toList.length = 62 := by decide

theorem Uint16_pair (b0 b1 : Byte) : Uint16 [b0, b1] = 256 * b0.val + b1.val := by
  have h0 := b0.isLt
  have h1 := b1.isLt
  simp only [Uint16, List.getD_cons_zero, List.getD_cons_succ]
  rw [Nat.shiftLeft_eq, Nat.lor_comm, Nat.mod_eq_of_lt (by omega), Nat.mul_comm,
    ← Nat.mul_add_lt_is_or (by omega)]

theorem alphabetAt_getElem? (n : Nat) (h : n < 62) : alphabet.toList[n]? = some (alphabetAt n) := by
  have hl : n < alphabet.toList.length := by rw [alphabet_length]; exact h
  rw [alphabetAt, List.getD_eq_getElem?_getD, List.getElem?_eq_getElem hl]
  rfl

theorem alphabetAt_mem (n : Nat) (h : n < 62) : alphabetAt n ∈ alphabet.toList :=
  List.getElem?_mem (alphabetAt_getElem? n h)

theorem alphabetAt_utf8Size (n : Nat) (h : n < 62) : (alphabetAt n).utf8Size = 1 := by
  have hall : ∀ c ∈ alphabet.toList, c.utf8Size = 1 := by decide
  exact hall _ (alphabetAt_mem n h)

theorem encode_ten (b0 b1 b2 b3 b4 b5 b6 b7 b8 b9 : Byte) :
    encode [b0, b1, b2, b3, b4, b5, b6, b7, b8, b9] =
      String.mk [alphabetAt (Uint16 [b0, b1] % alphabetLen),
        alphabetAt (Uint16 [b2, b3] % alphabetLen), alphabetAt (Uint16 [b4, b5] % alphabetLen),
        alphabetAt (Uint16 [b6, b7] % alphabetLen), alphabetAt (Uint16 [b8, b9] % alphabetLen)] :=
  rfl

theorem list_ten (b : List Byte) (h : b.length = 10) :
    ∃ b0 b1 b2 b3 b4 b5 b6 b7 b8 b9, b = [b0, b1, b2, b3, b4, b5, b6, b7, b8, b9] := by
  match b, h with
  | [b0, b1, b2, b3, b4, b5, b6, b7, b8, b9], _ => exact ⟨b0, b1, b2, b3, b4, b5, b6, b7, b8, b9, rfl⟩

theorem generateShortCode_ok (tape : List Byte) (h : shortCodeLength * 2 ≤ tape.length) :
    generateShortCode tape
      = (.ok (encode (tape.take (shortCodeLength * 2))), tape.drop (shortCodeLength * 2)) := by
  simp [generateShortCode, randRead, h]

theorem generateShortCode_error (tape : List Byte) (h : tape.length < shortCodeLength * 2) :
    generateShortCode tape = (.error "unexpected EOF", []) := by
  have : ¬ shortCodeLength * 2 ≤ tape.length := by omega
  simp [generateShortCode, randRead, this]

theorem Uint16_mod_lt (b : List Byte) : Uint16 b % alphabetLen < 62 := by
  rw [alphabetLen_eq]; exact Nat.mod_lt _ (by decide)

theorem encode_length (b : List Byte) (h : b.length = shortCodeLength * 2) :
    (encode b).toList.length = shortCodeLength := by
  obtain ⟨b0, b1, b2, b3, b4, b5, b6, b7, b8, b9, rfl⟩ := list_ten b h
  rfl

theorem encode_mem (b : List Byte) (h : b.length = shortCodeLength * 2) :
    ∀ c ∈ (encode b).toList, c ∈ alphabet.toList := by
  obtain ⟨b0, b1, b2, b3, b4, b5, b6, b7, b8, b9, rfl⟩ := list_ten b h
  intro c hc
  rw [encode_ten] at hc
  simp only [String.toList, List.mem_cons, List.mem_singleton, List.not_mem_nil, or_false] at hc
  rcases hc with rfl | rfl | rfl | rfl | rfl <;> exact alphabetAt_mem _ (Uint16_mod_lt _)

theorem encode_utf8ByteSize (b : List Byte) (h : b.length = shortCodeLength * 2) :
    (encode b).utf8ByteSize = shortCodeLength := by
  obtain ⟨b0, b1, b2, b3, b4, b5, b6, b7, b8, b9, rfl⟩ := list_ten b h
  rw [encode_ten]
  simp only [String.utf8ByteSize, String.utf8ByteSize.go,
    alphabetAt_utf8Size _ (Uint16_mod_lt _)]
  rfl

theorem encode_getElem? (b : List Byte) (h : b.length = shortCodeLength * 2) (i : Nat)
    (hi : i < shortCodeLength) :
    (encode b).toList[i]?
      = alphabet.toList[(256 * (b.getD (2 * i) 0).val + (b.getD (2 * i + 1) 0).val) % 62]? := by
  obtain ⟨b0, b1, b2, b3, b4, b5, b6, b7, b8, b9, rfl⟩ := list_ten b h
  rw [alphabetAt_getElem? _ (Nat.mod_lt _ (by decide)), encode_ten]
  simp only [Uint16_pair, alphabetLen_eq]
  have hi5 : i < 5 := hi
  interval_cases i <;> rfl

/-! ## Lemmas: one iteration of the retry loop -/

section Loop

variable {σ : Type} (h : Handler σ) (req : createShortURLRequest) (expiresAt : Option Time)

theorem createLoop_read_fails (n : Nat) (err : Option DBError) (u : URL) (w : World σ)
    (hlen : w.tape.length < shortCodeLength * 2) :
    createLoop h req expiresAt (n + 1) err u w
      = (.returned (jsonError StatusInternalServerError "failed to generate short code"),
          { w with tape := [], trace := w.trace ++ [.generateShortCode] }) := by
  simp only [createLoop, generateShortCode_error _ hlen]

theorem createLoop_created (n : Nat) (err : Option DBError) (u : URL) (w : World σ) (db1 : σ)
    (hlen : shortCodeLength * 2 ≤ w.tape.length)
    (hc : h.repo.Create w.db (newURL req expiresAt (encode (w.tape.take (shortCodeLength * 2))))
      = (none, db1)) :
    createLoop h req expiresAt (n + 1) err u w
      = (.done none (newURL req expiresAt (encode (w.tape.take (shortCodeLength * 2)))),
          { db := db1, tape := w.tape.drop (shortCodeLength * 2),
            trace := w.trace ++ [.generateShortCode,
              .create (newURL req expiresAt (encode (w.tape.take (shortCodeLength * 2))))] }) := by
  simp only [createLoop, generateShortCode_ok _ hlen, hc]

theorem createLoop_conflict (n : Nat) (err : Option DBError) (u : URL) (w : World σ) (db1 : σ)
    (e : DBError) (hlen : shortCodeLength * 2 ≤ w.tape.length)
    (hc : h.repo.Create w.db (newURL req expiresAt (encode (w.tape.take (shortCodeLength * 2))))
      = (some e, db1))
    (he : IsUniqueViolation e = true) :
    createLoop h req expiresAt (n + 1) err u w
      = createLoop h req expiresAt n (some e)
          (newURL req expiresAt (encode (w.tape.take (shortCodeLength * 2))))
          { db := db1, tape := w.tape.drop (shortCodeLength * 2),
            trace := w.trace ++ [.generateShortCode,
              .create (newURL req expiresAt (encode (w.tape.take (shortCodeLength * 2))))] } := by
  simp only [createLoop, generateShortCode_ok _ hlen, hc, he, if_true]

theorem createLoop_db_error (n : Nat) (err : Option DBError) (u : URL) (w : World σ) (db1 : σ)
    (e : DBError) (hlen : shortCodeLength * 2 ≤ w.tape.length)
    (hc : h.repo.Create w.db (newURL req expiresAt (encode (w.tape.take (shortCodeLength * 2))))
      = (some e, db1))
    (he : IsUniqueViolation e = false) :
    createLoop h req expiresAt (n + 1) err u w
      = (.returned (jsonError StatusInternalServerError ("database error: " ++ e.Error)),
          { db := db1, tape := w.tape.drop (shortCodeLength * 2),
            trace := w.trace ++ [.generateShortCode,
              .create (newURL req expiresAt (encode (w.tape.take (shortCodeLength * 2))))] }) := by
  simp only [createLoop, generateShortCode_ok _ hlen, hc, he]
  rfl

end Loop

/-! ## Lemmas: the retry loop along the attempts of a request -/

section Attempts

variable {σ : Type} (h : Handler σ) (req : createShortURLRequest) (expiresAt : Option Time)

theorem worldAt_zero (db : σ) (tape : List Byte) (us : Nat → URL) (trace : List Event) :
    worldAt h.repo db tape us trace 0 = { db := db, tape := tape, trace := trace } := by
  simp [worldAt, dbBefore]

theorem worldAt_tape_length (db : σ) (tape : List Byte) (us : Nat → URL) (trace : List Event)
    (i : Nat) (hlen : shortCodeLength * 2 * (i + 1) ≤ tape.length) :
    shortCodeLength * 2 ≤ (worldAt h.repo db tape us trace i).tape.length := by
  simp only [worldAt, List.length_drop]
  rw [Nat.mul_add, Nat.mul_one] at hlen
  omega

theorem worldAt_take (db : σ) (tape : List Byte) (trace : List Event) (i : Nat) :
    newURL req expiresAt (encode ((worldAt h.repo db tape (nthURL req expiresAt tape) trace i).tape.take
      (shortCodeLength * 2))) = nthURL req expiresAt tape i := rfl

theorem worldAt_step (db : σ) (tape : List Byte) (us : Nat → URL) (trace : List Event) (i : Nat) :
    ({ db := (h.repo.Create (worldAt h.repo db tape us trace i).db (us i)).2,
       tape := (worldAt h.repo db tape us trace i).tape.drop (shortCodeLength * 2),
       trace := trace ++ [.generateShortCode, .create (us i)] } : World σ)
      = worldAt h.repo db tape us (trace ++ [.generateShortCode, .create (us i)]) (i + 1) := by
  simp only [worldAt, dbBefore, List.drop_drop, Nat.mul_add, Nat.mul_one]

/-- One attempt that ends in a uniqueness conflict moves the loop to the next attempt. -/
theorem createLoop_worldAt_conflict (db : σ) (tape : List Byte) (trace : List Event)
    (n i : Nat) (err : Option DBError) (u : URL) (e : DBError)
    (hlen : shortCodeLength * 2 * (i + 1) ≤ tape.length)
    (hres : nthResult h.repo db (nthURL req expiresAt tape) i = some e)
    (he : IsUniqueViolation e = true) :
    createLoop h req expiresAt (n + 1) err u
        (worldAt h.repo db tape (nthURL req expiresAt tape) trace i)
      = createLoop h req expiresAt n (some e) (nthURL req expiresAt tape i)
          (worldAt h.repo db tape (nthURL req expiresAt tape)
            (trace ++ [.generateShortCode, .create (nthURL req expiresAt tape i)]) (i + 1)) := by
  have hc : h.repo.Create (worldAt h.repo db tape (nthURL req expiresAt tape) trace i).db
      (newURL req expiresAt (encode ((worldAt h.repo db tape (nthURL req expiresAt tape) trace
        i).tape.take (shortCodeLength * 2))))
      = (some e, (h.repo.Create (worldAt h.repo db tape (nthURL req expiresAt tape) trace i).db
          (nthURL req expiresAt tape i)).2) := by
    rw [worldAt_take]
    exact Prod.ext hres rfl
  rw [createLoop_conflict h req expiresAt n err u _ _ e
    (worldAt_tape_length h db tape _ trace i hlen) hc he, worldAt_take]
  exact congrArg _ (worldAt_step h db tape _ trace i)

end Attempts

section Attempts

variable {σ : Type} (h : Handler σ) (req : createShortURLRequest) (expiresAt : Option Time)

theorem block_le (tape : List Byte) (i k : Nat)
    (hlen : shortCodeLength * 2 * (i + (k + 1)) ≤ tape.length) :
    shortCodeLength * 2 * (i + 1) ≤ tape.length ∧
      shortCodeLength * 2 * (i + 1 + k) ≤ tape.length := by
  have h10 : shortCodeLength * 2 = 10 := rfl
  rw [h10] at hlen ⊢
  constructor <;> omega

/-- A run of `k` attempts that all end in a uniqueness conflict leaves the loop at attempt
`i + k`, with `k` iterations fewer to go. -/
theorem createLoop_conflicts (db : σ) (tape : List Byte) (n k : Nat) :
    ∀ (i : Nat) (trace : List Event) (err : Option DBError) (u : URL),
      shortCodeLength * 2 * (i + k) ≤ tape.length →
      (∀ j, i ≤ j → j < i + k → ∃ e,
        nthResult h.repo db (nthURL req expiresAt tape) j = some e ∧
          IsUniqueViolation e = true) →
      ∃ err1 u1,
        createLoop h req expiresAt (n + k) err u
            (worldAt h.repo db tape (nthURL req expiresAt tape) trace i)
          = createLoop h req expiresAt n err1 u1
              (worldAt h.repo db tape (nthURL req expiresAt tape)
                (trace ++ attemptEvents (nthURL req expiresAt tape) i k) (i + k))
        ∧ (err ≠ none ∨ 0 < k → err1 ≠ none) := by
  induction k with
  | zero =>
    intro i trace err u _ _
    refine ⟨err, u, by simp [attemptEvents], fun hor => ?_⟩
    rcases hor with hne | hlt
    · exact hne
    · exact absurd hlt (Nat.lt_irrefl 0)
  | succ k ih =>
    intro i trace err u hlen hconf
    obtain ⟨e, hres, he⟩ := hconf i (Nat.le_refl i) (by omega)
    obtain ⟨hlen1, hlen2⟩ := block_le tape i k hlen
    obtain ⟨err1, u1, heq, hne⟩ := ih (i + 1)
      (trace ++ [.generateShortCode, .create (nthURL req expiresAt tape i)]) (some e)
      (nthURL req expiresAt tape i) hlen2
      (fun j hj1 hj2 => hconf j (by omega) (by omega))
    refine ⟨err1, u1, ?_, fun _ => hne (Or.inl (by simp))⟩
    have hidx : i + (k + 1) = i + 1 + k := by omega
    rw [show n + (k + 1) = (n + k) + 1 from rfl,
      createLoop_worldAt_conflict h req expiresAt db tape trace (n + k) i err u e hlen1 hres he,
      heq, hidx]
    simp [attemptEvents]

end Attempts

section Counting

theorem countCreate_append (s t : List Event) :
    countCreate (s ++ t) = countCreate s + countCreate t := by
  simp [countCreate]

theorem countGenerate_append (s t : List Event) :
    countGenerate (s ++ t) = countGenerate s + countGenerate t := by
  simp [countGenerate]

theorem countCreate_attemptEvents (us : Nat → URL) (n : Nat) :
    ∀ i, countCreate (attemptEvents us i n) = n := by
  induction n with
  | zero => intro i; rfl
  | succ n ih =>
    intro i
    have := ih (i + 1)
    simp only [countCreate] at this ⊢
    simp [attemptEvents, this]

theorem countGenerate_attemptEvents (us : Nat → URL) (n : Nat) :
    ∀ i, countGenerate (attemptEvents us i n) = n := by
  induction n with
  | zero => intro i; rfl
  | succ n ih =>
    intro i
    have := ih (i + 1)
    simp only [countGenerate] at this ⊢
    simp [attemptEvents, this]

end Counting

section Attempts

variable {σ : Type} (h : Handler σ) (req : createShortURLRequest) (expiresAt : Option Time)

/-- An attempt on which `Create` succeeds leaves the loop through `break`. -/
theorem createLoop_worldAt_created (db : σ) (tape : List Byte) (trace : List Event)
    (n i : Nat) (err : Option DBError) (u : URL)
    (hlen : shortCodeLength * 2 * (i + 1) ≤ tape.length)
    (hres : nthResult h.repo db (nthURL req expiresAt tape) i = none) :
    createLoop h req expiresAt (n + 1) err u
        (worldAt h.repo db tape (nthURL req expiresAt tape) trace i)
      = (.done none (nthURL req expiresAt tape i),
          worldAt h.repo db tape (nthURL req expiresAt tape)
            (trace ++ [.generateShortCode, .create (nthURL req expiresAt tape i)]) (i + 1)) := by
  have hc : h.repo.Create (worldAt h.repo db tape (nthURL req expiresAt tape) trace i).db
      (newURL req expiresAt (encode ((worldAt h.repo db tape (nthURL req expiresAt tape) trace
        i).tape.take (shortCodeLength * 2))))
      = (none, (h.repo.Create (worldAt h.repo db tape (nthURL req expiresAt tape) trace i).db
          (nthURL req expiresAt tape i)).2) := by
    rw [worldAt_take]
    exact Prod.ext hres rfl
  rw [createLoop_created h req expiresAt n err u _ _
    (worldAt_tape_length h db tape _ trace i hlen) hc, worldAt_take]
  exact congrArg _ (worldAt_step h db tape _ trace i)

/-- An attempt on which `Create` fails with an error that is not a uniqueness conflict ends the
request. -/
theorem createLoop_worldAt_db_error (db : σ) (tape : List Byte) (trace : List Event)
    (n i : Nat) (err : Option DBError) (u : URL) (e : DBError)
    (hlen : shortCodeLength * 2 * (i + 1) ≤ tape.length)
    (hres : nthResult h.repo db (nthURL req expiresAt tape) i = some e)
    (he : IsUniqueViolation e = false) :
    createLoop h req expiresAt (n + 1) err u
        (worldAt h.repo db tape (nthURL req expiresAt tape) trace i)
      = (.returned (jsonError StatusInternalServerError ("database error: " ++ e.Error)),
          worldAt h.repo db tape (nthURL req expiresAt tape)
            (trace ++ [.generateShortCode, .create (nthURL req expiresAt tape i)]) (i + 1)) := by
  have hc : h.repo.Create (worldAt h.repo db tape (nthURL req expiresAt tape) trace i).db
      (newURL req expiresAt (encode ((worldAt h.repo db tape (nthURL req expiresAt tape) trace
        i).tape.take (shortCodeLength * 2))))
      = (some e, (h.repo.Create (worldAt h.repo db tape (nthURL req expiresAt tape) trace i).db
          (nthURL req expiresAt tape i)).2) := by
    rw [worldAt_take]
    exact Prod.ext hres rfl
  rw [createLoop_db_error h req expiresAt n err u _ _ e
    (worldAt_tape_length h db tape _ trace i hlen) hc he, worldAt_take]
  exact congrArg _ (worldAt_step h db tape _ trace i)

theorem attemptEvents_snoc (us : Nat → URL) (n : Nat) :
    ∀ i, attemptEvents us i (n + 1)
      = attemptEvents us i n ++ [.generateShortCode, .create (us (i + n))] := by
  induction n with
  | zero => intro i; rfl
  | succ n ih =>
    intro i
    have hidx : i + (n + 1) = i + 1 + n := by omega
    rw [attemptEvents, ih (i + 1), hidx]
    rfl

/-- The whole loop when the first `k` attempts conflict and attempt `k` is stored. -/
theorem createLoop_conflicts_then_created (w : World σ) (k : Nat) (hk : k < maxAttempts)
    (htape : shortCodeLength * 2 * (k + 1) ≤ w.tape.length)
    (hconf : ∀ i, i < k → ∃ e,
      nthResult h.repo w.db (nthURL req expiresAt w.tape) i = some e ∧
        IsUniqueViolation e = true)
    (hok : nthResult h.repo w.db (nthURL req expiresAt w.tape) k = none) :
    createLoop h req expiresAt maxAttempts none zeroURL w
      = (.done none (nthURL req expiresAt w.tape k),
          worldAt h.repo w.db w.tape (nthURL req expiresAt w.tape)
            (w.trace ++ attemptEvents (nthURL req expiresAt w.tape) 0 (k + 1)) (k + 1)) := by
  obtain ⟨err1, u1, heq, -⟩ := createLoop_conflicts h req expiresAt w.db w.tape
    (maxAttempts - (k + 1) + 1) k 0 w.trace none zeroURL
    (by have h10 : shortCodeLength * 2 = 10 := rfl
        rw [h10] at htape ⊢; omega)
    (fun j _ hj => hconf j (by omega))
  have hn : maxAttempts - (k + 1) + 1 + k = maxAttempts := by omega
  have hw : worldAt h.repo w.db w.tape (nthURL req expiresAt w.tape) w.trace 0 = w :=
    worldAt_zero h w.db w.tape _ w.trace
  rw [hn, hw, Nat.zero_add] at heq
  rw [heq, createLoop_worldAt_created h req expiresAt w.db w.tape _ _ k err1 u1 htape hok,
    List.append_assoc, attemptEvents_snoc, Nat.zero_add]

end Attempts

section Attempts

variable {σ : Type} (h : Handler σ) (req : createShortURLRequest) (expiresAt : Option Time)

/-- The whole loop when the first `k` attempts conflict and attempt `k` fails otherwise. -/
theorem createLoop_conflicts_then_db_error (w : World σ) (k : Nat) (hk : k < maxAttempts)
    (e : DBError) (htape : shortCodeLength * 2 * (k + 1) ≤ w.tape.length)
    (hconf : ∀ i, i < k → ∃ e,
      nthResult h.repo w.db (nthURL req expiresAt w.tape) i = some e ∧
        IsUniqueViolation e = true)
    (hfail : nthResult h.repo w.db (nthURL req expiresAt w.tape) k = some e)
    (he : IsUniqueViolation e = false) :
    createLoop h req expiresAt maxAttempts none zeroURL w
      = (.returned (jsonError StatusInternalServerError ("database error: " ++ e.Error)),
          worldAt h.repo w.db w.tape (nthURL req expiresAt w.tape)
            (w.trace ++ attemptEvents (nthURL req expiresAt w.tape) 0 (k + 1)) (k + 1)) := by
  obtain ⟨err1, u1, heq, -⟩ := createLoop_conflicts h req expiresAt w.db w.tape
    (maxAttempts - (k + 1) + 1) k 0 w.trace none zeroURL
    (by have h10 : shortCodeLength * 2 = 10 := rfl
        rw [h10] at htape ⊢; omega)
    (fun j _ hj => hconf j (by omega))
  have hn : maxAttempts - (k + 1) + 1 + k = maxAttempts := by omega
  have hw : worldAt h.repo w.db w.tape (nthURL req expiresAt w.tape) w.trace 0 = w :=
    worldAt_zero h w.db w.tape _ w.trace
  rw [hn, hw, Nat.zero_add] at heq
  rw [heq, createLoop_worldAt_db_error h req expiresAt w.db w.tape _ _ k err1 u1 e htape hfail he,
    List.append_assoc, attemptEvents_snoc, Nat.zero_add]

/-- The whole loop when every attempt conflicts: the bound is reached with `err` set. -/
theorem createLoop_all_conflicts (w : World σ)
    (htape : shortCodeLength * 2 * maxAttempts ≤ w.tape.length)
    (hconf : ∀ i, i < maxAttempts → ∃ e,
      nthResult h.repo w.db (nthURL req expiresAt w.tape) i = some e ∧
        IsUniqueViolation e = true) :
    ∃ e u, createLoop h req expiresAt maxAttempts none zeroURL w
      = (.done (some e) u,
          worldAt h.repo w.db w.tape (nthURL req expiresAt w.tape)
            (w.trace ++ attemptEvents (nthURL req expiresAt w.tape) 0 maxAttempts)
            maxAttempts) := by
  obtain ⟨err1, u1, heq, hne⟩ := createLoop_conflicts h req expiresAt w.db w.tape
    0 maxAttempts 0 w.trace none zeroURL (by rw [Nat.zero_add]; exact htape)
    (fun j _ hj => hconf j (by omega))
  have hw : worldAt h.repo w.db w.tape (nthURL req expiresAt w.tape) w.trace 0 = w :=
    worldAt_zero h w.db w.tape _ w.trace
  rw [hw, Nat.zero_add] at heq
  cases err1 with
  | none => exact absurd rfl (hne (Or.inr (by decide)))
  | some e => exact ⟨e, u1, by rw [heq]; rfl⟩

theorem dbBefore_of_failures (db : σ) (us : Nat → URL)
    (hatomic : ∀ s u, (h.repo.Create s u).1 ≠ none → (h.repo.Create s u).2 = s) (n : Nat)
    (hfail : ∀ i, i < n → nthResult h.repo db us i ≠ none) :
    dbBefore h.repo db us n = db := by
  induction n with
  | zero => rfl
  | succ n ih =>
    have hprev := ih (fun i hi => hfail i (by omega))
    have hn := hfail n (by omega)
    simp only [nthResult] at hn
    simp only [dbBefore]
    rw [hatomic _ _ hn, hprev]

/-- The loop calls `Create` at most once per iteration. -/
theorem createLoop_countCreate_le (n : Nat) :
    ∀ (err : Option DBError) (u : URL) (w : World σ),
      countCreate (createLoop h req expiresAt n err u w).2.trace ≤ countCreate w.trace + n := by
  induction n with
  | zero => intro err u w; simp [createLoop]
  | succ n ih =>
    intro err u w
    by_cases hlen : shortCodeLength * 2 ≤ w.tape.length
    · rcases hc : h.repo.Create w.db
          (newURL req expiresAt (encode (w.tape.take (shortCodeLength * 2)))) with ⟨r, db1⟩
      cases r with
      | none =>
        rw [createLoop_created h req expiresAt n err u w db1 hlen hc]
        simp only [countCreate_append]
        simp [countCreate]
      | some e =>
        cases he : IsUniqueViolation e with
        | true =>
          rw [createLoop_conflict h req expiresAt n err u w db1 e hlen hc he]
          refine le_trans (ih _ _ _) ?_
          simp only [countCreate_append]
          simp [countCreate]
          omega
        | false =>
          rw [createLoop_db_error h req expiresAt n err u w db1 e hlen hc he]
          simp only [countCreate_append]
          simp [countCreate]
    · rw [createLoop_read_fails h req expiresAt n err u w (by omega)]
      simp only [countCreate_append]
      simp [countCreate]

end Attempts

/-! ## Lemmas: how the retry loop ends -/

section Exit

variable {σ : Type} (h : Handler σ) (req : createShortURLRequest) (expiresAt : Option Time)

/-- The ways the retry loop can end: an error response from inside the loop, the bound
reached after a conflict, no iteration at all, or a row that `Create` accepted. -/
theorem createLoop_exit (n : Nat) :
    ∀ (err : Option DBError) (u : URL) (w : World σ) (out : LoopExit) (w1 : World σ),
      createLoop h req expiresAt n err u w = (out, w1) →
      (∃ msg, out = .returned (jsonError StatusInternalServerError msg)) ∨
      (∃ e u1, out = .done (some e) u1) ∨
      (n = 0 ∧ out = .done err u ∧ w1 = w) ∨
      (∃ db0 b, b.length = shortCodeLength * 2 ∧
        out = .done none (newURL req expiresAt (encode b)) ∧
        h.repo.Create db0 (newURL req expiresAt (encode b)) = (none, w1.db)) := by
  induction n with
  | zero =>
    intro err u w out w1 hrun
    simp only [createLoop, Prod.mk.injEq] at hrun
    exact Or.inr (Or.inr (Or.inl ⟨rfl, hrun.1.symm, hrun.2.symm⟩))
  | succ n ih =>
    intro err u w out w1 hrun
    by_cases hlen : shortCodeLength * 2 ≤ w.tape.length
    · rcases hc : h.repo.Create w.db
          (newURL req expiresAt (encode (w.tape.take (shortCodeLength * 2)))) with ⟨r, db1⟩
      cases r with
      | none =>
        rw [createLoop_created h req expiresAt n err u w db1 hlen hc, Prod.mk.injEq] at hrun
        refine Or.inr (Or.inr (Or.inr ⟨w.db, w.tape.take (shortCodeLength * 2), ?_,
          hrun.1.symm, ?_⟩))
        · rw [List.length_take]; omega
        · rw [hc, ← hrun.2]
      | some e =>
        cases he : IsUniqueViolation e with
        | true =>
          rw [createLoop_conflict h req expiresAt n err u w db1 e hlen hc he] at hrun
          rcases ih _ _ _ _ _ hrun with hr | hd | ⟨-, hout, -⟩ | hcreated
          · exact Or.inl hr
          · exact Or.inr (Or.inl hd)
          · exact Or.inr (Or.inl ⟨e, _, hout⟩)
          · exact Or.inr (Or.inr (Or.inr hcreated))
        | false =>
          rw [createLoop_db_error h req expiresAt n err u w db1 e hlen hc he,
            Prod.mk.injEq] at hrun
          exact Or.inl ⟨_, hrun.1.symm⟩
    · rw [createLoop_read_fails h req expiresAt n err u w (by omega), Prod.mk.injEq] at hrun
      exact Or.inl ⟨_, hrun.1.symm⟩

end Exit

/-- What a 201 response of `createShortURL` is made of: the request that was bound, a code
encoded from a full buffer, and a `Create` call that put the row into the final store. -/
theorem createShortURL_created {σ : Type} (h : Handler σ)
    (bind : Except String createShortURLRequest) (now : Time) (w : World σ)
    (hst : (createShortURL h bind now w).1.status = StatusCreated) :
    ∃ req db0 b, bind = .ok req ∧ b.length = shortCodeLength * 2 ∧
      (createShortURL h bind now w).1
        = { status := StatusCreated,
            body := .created
              { ShortURL := h.baseURL ++ "/" ++ encode b, ShortCode := encode b,
                OriginalURL := req.URL,
                ExpiresAt := computeExpiresAt now req.ExpiresInSeconds },
            location := none } ∧
      h.repo.Create db0 (newURL req (computeExpiresAt now req.ExpiresInSeconds) (encode b))
        = (none, (createShortURL h bind now w).2.db) := by
  cases bind with
  | error e => simp [createShortURL, jsonError, StatusBadRequest, StatusCreated] at hst
  | ok req =>
    rcases hrun : createLoop h req (computeExpiresAt now req.ExpiresInSeconds) maxAttempts none
      zeroURL w with ⟨out, w1⟩
    have hcs : createShortURL h (.ok req) now w
        = (match (out, w1) with
          | (.returned resp, w1) => (resp, w1)
          | (.done (some _) _, w1) =>
            (jsonError StatusInternalServerError "could not allocate short code", w1)
          | (.done none u, w1) =>
            ({ status := StatusCreated,
               body := .created { ShortURL := h.baseURL ++ "/" ++ u.ShortCode,
                                  ShortCode := u.ShortCode,
                                  OriginalURL := u.OriginalURL, ExpiresAt := u.ExpiresAt },
               location := none }, w1)) := by
      simp only [createShortURL, hrun]
    rw [hcs] at hst ⊢
    rcases createLoop_exit h req _ maxAttempts none zeroURL w out w1 hrun with
      ⟨msg, rfl⟩ | ⟨e, u1, rfl⟩ | ⟨h0, -, -⟩ | ⟨db0, b, hb, rfl, hc⟩
    · simp [jsonError, StatusInternalServerError, StatusCreated] at hst
    · simp [jsonError, StatusInternalServerError, StatusCreated] at hst
    · exact absurd h0 (by decide)
    · exact ⟨req, db0, b, rfl, hb, rfl, hc⟩

/-! ## Short codes and the round trip -/

theorem tableGet_after_create (rows rows1 : List URL) (u : URL)
    (hc : tableCreate rows u = (none, rows1)) :
    tableGet rows1 u.ShortCode = .ok { u with ID := rows.length + 1 } := by
  unfold tableCreate at hc
  by_cases hany : rows.any (fun r => r.ShortCode == u.ShortCode) = true
  · rw [if_pos hany] at hc
    simp at hc
  · rw [if_neg hany, Prod.mk.injEq] at hc
    have hnone : rows.find? (fun r => r.ShortCode == u.ShortCode) = none := by
      rw [List.find?_eq_none]
      intro x hx hxu
      exact hany (List.any_eq_true.mpr ⟨x, hx, hxu⟩)
    rw [← hc.2]
    simp [tableGet, List.find?_append, hnone]

/-- C1. For every tape that can fill the 10-byte buffer, `generateShortCode` returns a string of
exactly 5 characters, each a member of `alphabet`; `alphabet` is 62 distinct alphanumeric
characters; and the `short_code` of every 201 response of `createShortURL` has that shape. -/
theorem generateShortCode_shape :
    (∀ tape : List Byte, shortCodeLength * 2 ≤ tape.length →
      ∃ code, (generateShortCode tape).1 = .ok code ∧ code.length = 5 ∧
        ∀ c ∈ code.toList, c ∈ alphabet.toList) ∧
    (alphabet.length = 62 ∧ alphabet.toList.Nodup ∧
      ∀ c ∈ alphabet.toList, c.isAlphanum = true) ∧
    (∀ (σ : Type) (h : Handler σ) (bind : Except String createShortURLRequest) (now : Time)
        (w : World σ), (createShortURL h bind now w).1.status = StatusCreated →
      ∃ r, (createShortURL h bind now w).1.body = .created r ∧ r.ShortCode.length = 5 ∧
        ∀ c ∈ r.ShortCode.toList, c ∈ alphabet.toList) := by
  refine ⟨?_, ⟨by decide, by decide, by decide⟩, ?_⟩
  · intro tape htape
    have hlen : (tape.take (shortCodeLength * 2)).length = shortCodeLength * 2 := by
      rw [List.length_take]; omega
    refine ⟨encode (tape.take (shortCodeLength * 2)), ?_, encode_length _ hlen,
      encode_mem _ hlen⟩
    rw [generateShortCode_ok tape htape]
  · intro σ h bind now w hst
    obtain ⟨req, db0, b, -, hb, hresp, -⟩ := createShortURL_created h bind now w hst
    rw [hresp]
    exact ⟨_, rfl, encode_length b hb, encode_mem b hb⟩

theorem generateShortCode_shape_witness :
    shortCodeLength * 2 ≤ sampleTape.length ∧
    (∃ code, (generateShortCode sampleTape).1 = .ok code ∧ code.length = 5 ∧
      ∀ c ∈ code.toList, c ∈ alphabet.toList) ∧
    (createShortURL sampleHandler (.ok sampleReq) sampleNow
      ⟨sampleRows, sampleTape, []⟩).1.status = StatusCreated ∧
    (∃ r, (createShortURL sampleHandler (.ok sampleReq) sampleNow
        ⟨sampleRows, sampleTape, []⟩).1.body = .created r ∧ r.ShortCode.length = 5 ∧
      ∀ c ∈ r.ShortCode.toList, c ∈ alphabet.toList) :=
  ⟨by decide, generateShortCode_shape.1 sampleTape (by decide), by decide,
    generateShortCode_shape.2.2 (List URL) sampleHandler (.ok sampleReq) sampleNow
      ⟨sampleRows, sampleTape, []⟩ (by decide)⟩

theorem escapeChar_ascii (c : Char) (hc : c.toNat < 128) :
    (utf8Bytes c).flatMap escapeByte = [c] := by
  have hnot : ¬ c.toNat ≥ 128 := by omega
  simp [utf8Bytes, escapeByte, hc, hnot]

/-- A string of ASCII characters passes through `hexEscapeNonASCII` unchanged. -/
theorem hexEscapeNonASCII_ascii (s : String) (hs : ∀ c ∈ s.toList, c.toNat < 128) :
    hexEscapeNonASCII s = s := by
  have hlist : ∀ l : List Char, (∀ c ∈ l, c.toNat < 128) →
      l.flatMap (fun c => (utf8Bytes c).flatMap escapeByte) = l := by
    intro l
    induction l with
    | nil => intro _; rfl
    | cons a l ih =>
      intro hl
      rw [List.flatMap_cons, escapeChar_ascii a (hl a (List.mem_cons_self a l)),
        ih (fun c hc => hl c (List.mem_cons_of_mem a hc))]
      rfl
  unfold hexEscapeNonASCII
  rw [hlist s.toList hs]
  rfl

theorem redirectTarget_of_scheme (resolve : String → String) (url : String)
    (hs : hasScheme url = true) : redirectTarget resolve url = url := by
  simp [redirectTarget, hs]

/-- C2. Over the table store: when `createShortURL` answers 201 for a request with URL `U` and
no `expires_in_seconds`, `redirect` on the returned `short_code`, run on the world that
`createShortURL` left, answers 307 with the `Location` that `net/http.Redirect` writes for `U`:
for a `U` that starts with a scheme this is `U` with every byte from `0x80` up percent-escaped,
and it is `U` itself when `U` is ASCII as well. -/
theorem createShortURL_redirect_roundtrip (baseURL : String) (rows : List URL)
    (tape : List Byte) (trace : List Event) (U : String) (now later : Time)
    (resolve : String → String)
    (hst : (createShortURL ⟨tableRepo, baseURL⟩ (.ok ⟨U, none⟩) now
      ⟨rows, tape, trace⟩).1.status = StatusCreated) :
    ∃ r, (createShortURL ⟨tableRepo, baseURL⟩ (.ok ⟨U, none⟩) now
        ⟨rows, tape, trace⟩).1.body = .created r ∧
      (redirect ⟨tableRepo, baseURL⟩ resolve r.ShortCode later
        (createShortURL ⟨tableRepo, baseURL⟩ (.ok ⟨U, none⟩) now ⟨rows, tape, trace⟩).2).1.status
        = 307 ∧
      (redirect ⟨tableRepo, baseURL⟩ resolve r.ShortCode later
        (createShortURL ⟨tableRepo, baseURL⟩ (.ok ⟨U, none⟩) now
          ⟨rows, tape, trace⟩).2).1.location
        = some (hexEscapeNonASCII (redirectTarget resolve U)) ∧
      (hasScheme U = true →
        (redirect ⟨tableRepo, baseURL⟩ resolve r.ShortCode later
          (createShortURL ⟨tableRepo, baseURL⟩ (.ok ⟨U, none⟩) now
            ⟨rows, tape, trace⟩).2).1.location
          = some (hexEscapeNonASCII U)) ∧
      (hasScheme U = true → (∀ c ∈ U.toList, c.toNat < 128) →
        (redirect ⟨tableRepo, baseURL⟩ resolve r.ShortCode later
          (createShortURL ⟨tableRepo, baseURL⟩ (.ok ⟨U, none⟩) now
            ⟨rows, tape, trace⟩).2).1.location
          = some U) := by
  obtain ⟨req, db0, b, hreq, hb, hresp, hc⟩ :=
    createShortURL_created ⟨tableRepo, baseURL⟩ (.ok ⟨U, none⟩) now ⟨rows, tape, trace⟩ hst
  cases hreq
  rw [hresp]
  have hget := tableGet_after_create db0 _ _ hc
  have hsize : ¬ (encode b).utf8ByteSize ≠ shortCodeLength := by
    rw [encode_utf8ByteSize b hb]; exact fun hne => hne rfl
  have hget1 : tableRepo.GetByShortCode
      (createShortURL ⟨tableRepo, baseURL⟩ (.ok ⟨U, none⟩) now ⟨rows, tape, trace⟩).2.db
      (encode b) = .ok { newURL ⟨U, none⟩ (computeExpiresAt now none) (encode b) with
          ID := db0.length + 1 } := hget
  have hrun : (redirect ⟨tableRepo, baseURL⟩ resolve (encode b) later
      (createShortURL ⟨tableRepo, baseURL⟩ (.ok ⟨U, none⟩) now ⟨rows, tape, trace⟩).2).1
      = Redirect resolve StatusTemporaryRedirect U := by
    simp only [redirect, if_neg hsize]
    rw [hget1]
    rfl
  refine ⟨_, rfl, ?_, ?_, ?_, ?_⟩
  · rw [hrun]; rfl
  · rw [hrun]; rfl
  · intro hs
    rw [hrun]
    simp only [Redirect, redirectTarget_of_scheme resolve U hs]
  · intro hs hascii
    rw [hrun]
    simp only [Redirect, redirectTarget_of_scheme resolve U hs, hexEscapeNonASCII_ascii U hascii]

theorem createShortURL_redirect_roundtrip_witness :
    ((createShortURL ⟨tableRepo, "http://localhost:8080"⟩ (.ok ⟨"https://example.com", none⟩)
        sampleNow ⟨sampleRows, sampleTape, []⟩).1.status = StatusCreated ∧
      hasScheme "https://example.com" = true ∧
      ∀ c ∈ "https://example.com".toList, c.toNat < 128) ∧
    ∃ r, (createShortURL ⟨tableRepo, "http://localhost:8080"⟩
        (.ok ⟨"https://example.com", none⟩) sampleNow
        ⟨sampleRows, sampleTape, []⟩).1.body = .created r ∧
      (redirect ⟨tableRepo, "http://localhost:8080"⟩ id r.ShortCode (sampleNow.Add Second)
        (createShortURL ⟨tableRepo, "http://localhost:8080"⟩
          (.ok ⟨"https://example.com", none⟩) sampleNow
          ⟨sampleRows, sampleTape, []⟩).2).1.status = 307 ∧
      (redirect ⟨tableRepo, "http://localhost:8080"⟩ id r.ShortCode (sampleNow.Add Second)
        (createShortURL ⟨tableRepo, "http://localhost:8080"⟩
          (.ok ⟨"https://example.com", none⟩) sampleNow
          ⟨sampleRows, sampleTape, []⟩).2).1.location = some "https://example.com" :=
  ⟨⟨by decide, by decide, by decide⟩,
    match createShortURL_redirect_roundtrip "http://localhost:8080" sampleRows sampleTape []
      "https://example.com" sampleNow (sampleNow.Add Second) id (by decide) with
    | ⟨r, hbody, hstatus, _, _, hloc⟩ => ⟨r, hbody, hstatus, hloc (by decide) (by decide)⟩⟩

/-- C2, as stated, fails for a URL with a character outside ASCII: created over an empty table
with URL `https://example.com/café`, the link `abcde` redirects with `Location`
`https://example.com/caf%c3%a9`, which is not that URL. -/
theorem roundtrip_location_differs_nonASCII :
    (createShortURL sampleHandler (.ok ⟨"https://example.com/café", none⟩) sampleNow
        ⟨[], sampleTape, []⟩).1
      = { status := 201,
          body := .created
            { ShortURL := "http://localhost:8080/abcde", ShortCode := "abcde",
              OriginalURL := "https://example.com/café", ExpiresAt := none },
          location := none } ∧
    (redirect sampleHandler id "abcde" (sampleNow.Add Second)
        (createShortURL sampleHandler (.ok ⟨"https://example.com/café", none⟩) sampleNow
          ⟨[], sampleTape, []⟩).2).1.status = 307 ∧
    (redirect sampleHandler id "abcde" (sampleNow.Add Second)
        (createShortURL sampleHandler (.ok ⟨"https://example.com/café", none⟩) sampleNow
          ⟨[], sampleTape, []⟩).2).1.location = some "https://example.com/caf%c3%a9" ∧
    ¬ ((redirect sampleHandler id "abcde" (sampleNow.Add Second)
        (createShortURL sampleHandler (.ok ⟨"https://example.com/café", none⟩) sampleNow
          ⟨[], sampleTape, []⟩).2).1.location = some "https://example.com/café") := by
  refine ⟨rfl, rfl, rfl, ?_⟩
  decide

/-! ## The retry loop -/

/-- C3. For `k ≤ 4`, with the random source filling the buffer on attempts `1..k+1`: when
`Create` reports a uniqueness conflict on the first `k` attempts and succeeds on attempt `k+1`,
`createShortURL` answers 201 with `short_code` the code generated on attempt `k+1` and
`short_url` the base URL, `/` and that code; its calls are, in order, one code generation and one
`Create` of the freshly generated code per attempt, `k+1` of each. -/
theorem createShortURL_conflicts_then_created {σ : Type} (h : Handler σ)
    (req : createShortURLRequest) (now : Time) (w : World σ) (k : Nat) (hk : k ≤ 4)
    (htape : shortCodeLength * 2 * (k + 1) ≤ w.tape.length)
    (hconf : ∀ i, i < k → ∃ e,
      nthResult h.repo w.db
          (nthURL req (computeExpiresAt now req.ExpiresInSeconds) w.tape) i = some e ∧
        IsUniqueViolation e = true)
    (hok : nthResult h.repo w.db
      (nthURL req (computeExpiresAt now req.ExpiresInSeconds) w.tape) k = none) :
    (createShortURL h (.ok req) now w).1
        = { status := StatusCreated,
            body := .created
              { ShortURL := h.baseURL ++ "/" ++ nthCode w.tape k,
                ShortCode := nthCode w.tape k,
                OriginalURL := req.URL,
                ExpiresAt := computeExpiresAt now req.ExpiresInSeconds },
            location := none } ∧
      (createShortURL h (.ok req) now w).2.trace
        = w.trace ++ attemptEvents
            (fun i => newURL req (computeExpiresAt now req.ExpiresInSeconds) (nthCode w.tape i))
            0 (k + 1) ∧
      countCreate (createShortURL h (.ok req) now w).2.trace = countCreate w.trace + (k + 1) ∧
      countGenerate (createShortURL h (.ok req) now w).2.trace
        = countGenerate w.trace + (k + 1) ∧
      (createShortURL h (.ok req) now w).2.db
        = dbBefore h.repo w.db
            (nthURL req (computeExpiresAt now req.ExpiresInSeconds) w.tape) (k + 1) := by
  have hloop := createLoop_conflicts_then_created h req
    (computeExpiresAt now req.ExpiresInSeconds) w k (by simp only [maxAttempts]; omega)
    htape hconf hok
  have hrun : createShortURL h (.ok req) now w
      = ({ status := StatusCreated,
           body := .created
             { ShortURL := h.baseURL ++ "/" ++ nthCode w.tape k,
               ShortCode := nthCode w.tape k,
               OriginalURL := req.URL,
               ExpiresAt := computeExpiresAt now req.ExpiresInSeconds },
           location := none },
         worldAt h.repo w.db w.tape
           (nthURL req (computeExpiresAt now req.ExpiresInSeconds) w.tape)
           (w.trace ++ attemptEvents
             (nthURL req (computeExpiresAt now req.ExpiresInSeconds) w.tape) 0 (k + 1))
           (k + 1)) := by
    simp only [createShortURL, hloop]
    rfl
  rw [hrun]
  refine ⟨rfl, rfl, ?_, ?_, rfl⟩
  · simp only [worldAt, countCreate_append, countCreate_attemptEvents]
  · simp only [worldAt, countGenerate_append, countGenerate_attemptEvents]

theorem createShortURL_conflicts_then_created_witness :
    (1 ≤ 4 ∧ shortCodeLength * 2 * (1 + 1) ≤ sampleTape.length ∧
      (∀ i, i < 1 → ∃ e,
        nthResult tableRepo sampleRows
            (nthURL sampleReq (computeExpiresAt sampleNow sampleReq.ExpiresInSeconds)
              sampleTape) i = some e ∧
          IsUniqueViolation e = true) ∧
      nthResult tableRepo sampleRows
        (nthURL sampleReq (computeExpiresAt sampleNow sampleReq.ExpiresInSeconds)
          sampleTape) 1 = none) ∧
    (createShortURL sampleHandler (.ok sampleReq) sampleNow ⟨sampleRows, sampleTape, []⟩).1
      = { status := StatusCreated,
          body := .created
            { ShortURL := "http://localhost:8080" ++ "/" ++ nthCode sampleTape 1,
              ShortCode := nthCode sampleTape 1,
              OriginalURL := "https://example.com",
              ExpiresAt := none },
          location := none } ∧
    nthCode sampleTape 1 = "fghij" ∧
    countCreate (createShortURL sampleHandler (.ok sampleReq) sampleNow
      ⟨sampleRows, sampleTape, []⟩).2.trace = 0 + (1 + 1) :=
  have hconf : ∀ i, i < 1 → ∃ e,
      nthResult tableRepo sampleRows
          (nthURL sampleReq (computeExpiresAt sampleNow sampleReq.ExpiresInSeconds)
            sampleTape) i = some e ∧
        IsUniqueViolation e = true := by
    intro i hi
    have hi0 : i = 0 := by omega
    subst hi0
    exact ⟨_, rfl, rfl⟩
  ⟨⟨by decide, by decide, hconf, rfl⟩,
    (createShortURL_conflicts_then_created sampleHandler sampleReq sampleNow
      ⟨sampleRows, sampleTape, []⟩ 1 (by decide) (by decide) hconf rfl).1,
    rfl,
    (createShortURL_conflicts_then_created sampleHandler sampleReq sampleNow
      ⟨sampleRows, sampleTape, []⟩ 1 (by decide) (by decide) hconf rfl).2.2.1⟩

/-- C4. For `1 ≤ j ≤ 5`, with the random source filling the buffer on attempts `1..j`: when
`Create` reports a uniqueness conflict on attempts `1..j-1` and on attempt `j` fails with an
error `e` that is not a uniqueness conflict, `createShortURL` answers 500 with the database
error, having generated `j` codes and called `Create` `j` times and nothing after; the answer is
not a 201, the store has seen only those `j` failed calls, and a store that a failed `Create`
leaves as it was is left as it was. -/
theorem createShortURL_db_error_aborts {σ : Type} (h : Handler σ)
    (req : createShortURLRequest) (now : Time) (w : World σ) (j : Nat) (e : DBError)
    (hj1 : 1 ≤ j) (hj5 : j ≤ 5)
    (htape : shortCodeLength * 2 * j ≤ w.tape.length)
    (hconf : ∀ i, i < j - 1 → ∃ e1,
      nthResult h.repo w.db
          (nthURL req (computeExpiresAt now req.ExpiresInSeconds) w.tape) i = some e1 ∧
        IsUniqueViolation e1 = true)
    (hfail : nthResult h.repo w.db
      (nthURL req (computeExpiresAt now req.ExpiresInSeconds) w.tape) (j - 1) = some e)
    (he : IsUniqueViolation e = false) :
    (createShortURL h (.ok req) now w).1
        = { status := 500, body := .error ("database error: " ++ e.Error), location := none } ∧
      (createShortURL h (.ok req) now w).1.status ≠ StatusCreated ∧
      (createShortURL h (.ok req) now w).2.trace
        = w.trace ++ attemptEvents
            (fun i => newURL req (computeExpiresAt now req.ExpiresInSeconds) (nthCode w.tape i))
            0 j ∧
      countCreate (createShortURL h (.ok req) now w).2.trace = countCreate w.trace + j ∧
      countGenerate (createShortURL h (.ok req) now w).2.trace = countGenerate w.trace + j ∧
      (createShortURL h (.ok req) now w).2.db
        = dbBefore h.repo w.db
            (nthURL req (computeExpiresAt now req.ExpiresInSeconds) w.tape) j ∧
      ((∀ s u, (h.repo.Create s u).1 ≠ none → (h.repo.Create s u).2 = s) →
        (createShortURL h (.ok req) now w).2.db = w.db) := by
  obtain ⟨k, rfl⟩ : ∃ k, j = k + 1 := ⟨j - 1, by omega⟩
  rw [Nat.add_sub_cancel] at hconf hfail
  have hloop := createLoop_conflicts_then_db_error h req
    (computeExpiresAt now req.ExpiresInSeconds) w k (by simp only [maxAttempts]; omega) e
    htape hconf hfail he
  have hrun : createShortURL h (.ok req) now w
      = ({ status := 500, body := .error ("database error: " ++ e.Error), location := none },
         worldAt h.repo w.db w.tape
           (nthURL req (computeExpiresAt now req.ExpiresInSeconds) w.tape)
           (w.trace ++ attemptEvents
             (nthURL req (computeExpiresAt now req.ExpiresInSeconds) w.tape) 0 (k + 1))
           (k + 1)) := by
    simp only [createShortURL, hloop]
    rfl
  rw [hrun]
  refine ⟨rfl, by simp [StatusCreated], rfl, ?_, ?_, rfl, ?_⟩
  · simp only [worldAt, countCreate_append, countCreate_attemptEvents]
  · simp only [worldAt, countGenerate_append, countGenerate_attemptEvents]
  · intro hatomic
    refine dbBefore_of_failures h w.db _ hatomic (k + 1) ?_
    intro i hi
    by_cases hik : i < k
    · obtain ⟨e1, he1, -⟩ := hconf i hik
      rw [he1]; exact Option.some_ne_none e1
    · have hi' : i = k := by omega
      rw [hi', hfail]; exact Option.some_ne_none e

theorem createShortURL_db_error_aborts_witness :
    (1 ≤ 1 ∧ 1 ≤ 5 ∧ shortCodeLength * 2 * 1 ≤ zeroTape.length ∧
      nthResult (failingRepo (.other "connection refused")) ()
        (nthURL sampleReq (computeExpiresAt sampleNow sampleReq.ExpiresInSeconds) zeroTape)
        (1 - 1) = some (.other "connection refused") ∧
      IsUniqueViolation (.other "connection refused") = false) ∧
    (createShortURL (failingHandler (.other "connection refused")) (.ok sampleReq) sampleNow
        ⟨(), zeroTape, []⟩).1
      = { status := 500, body := .error ("database error: " ++ "connection refused"),
          location := none } ∧
    countCreate (createShortURL (failingHandler (.other "connection refused")) (.ok sampleReq)
      sampleNow ⟨(), zeroTape, []⟩).2.trace = 0 + 1 :=
  ⟨⟨by decide, by decide, by decide, rfl, rfl⟩,
    (createShortURL_db_error_aborts (failingHandler (.other "connection refused")) sampleReq
      sampleNow ⟨(), zeroTape, []⟩ 1 (.other "connection refused") (by decide) (by decide)
      (by decide) (fun i hi => absurd hi (by omega)) rfl rfl).1,
    (createShortURL_db_error_aborts (failingHandler (.other "connection refused")) sampleReq
      sampleNow ⟨(), zeroTape, []⟩ 1 (.other "connection refused") (by decide) (by decide)
      (by decide) (fun i hi => absurd hi (by omega)) rfl rfl).2.2.2.1⟩

/-- C5. With the random source filling the buffer on all five attempts: when `Create` reports a
uniqueness conflict on every attempt, `createShortURL` generates a code and calls `Create`
exactly 5 times each and answers 500 with `could not allocate short code`, not 201. Whatever the
store and the random source do, one request adds at most 5 `Create` calls. -/
theorem createShortURL_all_conflicts {σ : Type} (h : Handler σ)
    (req : createShortURLRequest) (now : Time) (w : World σ)
    (htape : shortCodeLength * 2 * 5 ≤ w.tape.length)
    (hconf : ∀ i, i < 5 → ∃ e,
      nthResult h.repo w.db
          (nthURL req (computeExpiresAt now req.ExpiresInSeconds) w.tape) i = some e ∧
        IsUniqueViolation e = true) :
    ((createShortURL h (.ok req) now w).1
        = { status := 500, body := .error "could not allocate short code", location := none } ∧
      (createShortURL h (.ok req) now w).1.status ≠ StatusCreated ∧
      (createShortURL h (.ok req) now w).2.trace
        = w.trace ++ attemptEvents
            (fun i => newURL req (computeExpiresAt now req.ExpiresInSeconds) (nthCode w.tape i))
            0 5 ∧
      countGenerate (createShortURL h (.ok req) now w).2.trace = countGenerate w.trace + 5 ∧
      countCreate (createShortURL h (.ok req) now w).2.trace = countCreate w.trace + 5) ∧
    (∀ (τ : Type) (h1 : Handler τ) (bind : Except String createShortURLRequest) (now1 : Time)
        (w1 : World τ),
      countCreate (createShortURL h1 bind now1 w1).2.trace ≤ countCreate w1.trace + 5) := by
  constructor
  · obtain ⟨e, u, hloop⟩ := createLoop_all_conflicts h req
      (computeExpiresAt now req.ExpiresInSeconds) w htape hconf
    have hrun : createShortURL h (.ok req) now w
        = ({ status := 500, body := .error "could not allocate short code", location := none },
           worldAt h.repo w.db w.tape
             (nthURL req (computeExpiresAt now req.ExpiresInSeconds) w.tape)
             (w.trace ++ attemptEvents
               (nthURL req (computeExpiresAt now req.ExpiresInSeconds) w.tape) 0 5) 5) := by
      simp only [createShortURL, hloop]
      rfl
    rw [hrun]
    refine ⟨rfl, by simp [StatusCreated], rfl, ?_, ?_⟩
    · simp only [worldAt, countGenerate_append, countGenerate_attemptEvents]
    · simp only [worldAt, countCreate_append, countCreate_attemptEvents]
  · intro τ h1 bind now1 w1
    cases bind with
    | error msg => simp [createShortURL]
    | ok req1 =>
      have hle := createLoop_countCreate_le h1 req1
        (computeExpiresAt now1 req1.ExpiresInSeconds) maxAttempts none zeroURL w1
      rcases hrun : createLoop h1 req1 (computeExpiresAt now1 req1.ExpiresInSeconds)
        maxAttempts none zeroURL w1 with ⟨out, w2⟩
      rw [hrun] at hle
      have htr : (createShortURL h1 (.ok req1) now1 w1).2.trace = w2.trace := by
        simp only [createShortURL, hrun]
        cases out with
        | returned resp => rfl
        | done err u =>
          cases err with
          | none => rfl
          | some e => rfl
      rw [htr]
      exact hle

theorem createShortURL_all_conflicts_witness :
    (shortCodeLength * 2 * 5 ≤ zeroTape.length ∧
      ∀ i, i < 5 → ∃ e,
        nthResult (failingRepo (.pg "23505" "duplicate key")) ()
            (nthURL sampleReq (computeExpiresAt sampleNow sampleReq.ExpiresInSeconds)
              zeroTape) i = some e ∧
          IsUniqueViolation e = true) ∧
    (createShortURL (failingHandler (.pg "23505" "duplicate key")) (.ok sampleReq) sampleNow
        ⟨(), zeroTape, []⟩).1
      = { status := 500, body := .error "could not allocate short code", location := none } ∧
    countCreate (createShortURL (failingHandler (.pg "23505" "duplicate key")) (.ok sampleReq)
      sampleNow ⟨(), zeroTape, []⟩).2.trace = 0 + 5 :=
  have hconf : ∀ i, i < 5 → ∃ e,
      nthResult (failingRepo (.pg "23505" "duplicate key")) ()
          (nthURL sampleReq (computeExpiresAt sampleNow sampleReq.ExpiresInSeconds)
            zeroTape) i = some e ∧
        IsUniqueViolation e = true :=
    fun _ _ => ⟨.pg "23505" "duplicate key", rfl, rfl⟩
  ⟨⟨by decide, hconf⟩,
    (createShortURL_all_conflicts (failingHandler (.pg "23505" "duplicate key")) sampleReq
      sampleNow ⟨(), zeroTape, []⟩ (by decide) hconf).1.1,
    (createShortURL_all_conflicts (failingHandler (.pg "23505" "duplicate key")) sampleReq
      sampleNow ⟨(), zeroTape, []⟩ (by decide) hconf).1.2.2.2.2⟩

/-! ## Redirect -/

theorem redirect_found {σ : Type} (h : Handler σ) (resolve : String → String) (code : String)
    (now : Time) (w : World σ) (u : URL) (hlen : code.utf8ByteSize = shortCodeLength)
    (hget : h.repo.GetByShortCode w.db code = .ok u) :
    redirect h resolve code now w
      = if isExpired now u then
          ({ status := StatusGone, body := .expired "link expired" u.OriginalURL,
             location := none },
            { w with trace := w.trace ++ [.getByShortCode code] })
        else
          (Redirect resolve StatusTemporaryRedirect u.OriginalURL,
            { w with trace := w.trace ++ [.getByShortCode code] ++ [.incrementClick u.ID] }) := by
  have hsize : ¬ code.utf8ByteSize ≠ shortCodeLength := fun hne => hne hlen
  simp only [redirect, if_neg hsize, hget]

theorem dispatched_append (s t : List Event) :
    dispatched (s ++ t) = dispatched s ++ dispatched t := by
  simp [dispatched]

theorem Redirect_location_of_ascii (resolve : String → String) (code : Nat) (url : String)
    (hs : hasScheme url = true) (hascii : ∀ c ∈ url.toList, c.toNat < 128) :
    (Redirect resolve code url).location = some url := by
  simp only [Redirect, redirectTarget_of_scheme resolve url hs,
    hexEscapeNonASCII_ascii url hascii]

/-- C6. For a code of 5 bytes that the store finds as row `u`, at time `now`: if `u.ExpiresAt`
is set and earlier than `now`, `redirect` answers 410 with `u.OriginalURL` in the body, sets no
`Location` and dispatches no click increment; otherwise it answers 307 with the `Location` that
`net/http.Redirect` writes for `u.OriginalURL` (its bytes from `0x80` up percent-escaped; equal
to `u.OriginalURL` when that starts with a scheme and is ASCII) and dispatches exactly one click
increment, for `u.ID`. An expiry of one second before `now` gives 410, an expiry of 3600 seconds
after `now` gives 307. -/
theorem redirect_expiry {σ : Type} (h : Handler σ) (resolve : String → String) (code : String)
    (now : Time) (w : World σ) (u : URL) (hlen : code.utf8ByteSize = shortCodeLength)
    (hget : h.repo.GetByShortCode w.db code = .ok u) :
    ((∃ e, u.ExpiresAt = some e ∧ e.unixNano < now.unixNano) →
      (redirect h resolve code now w).1
          = { status := StatusGone, body := .expired "link expired" u.OriginalURL,
              location := none } ∧
        dispatched (redirect h resolve code now w).2.trace = dispatched w.trace ∧
        (redirect h resolve code now w).2.db = w.db) ∧
    (¬ (∃ e, u.ExpiresAt = some e ∧ e.unixNano < now.unixNano) →
      (redirect h resolve code now w).1.status = StatusTemporaryRedirect ∧
        (redirect h resolve code now w).1.location
          = some (hexEscapeNonASCII (redirectTarget resolve u.OriginalURL)) ∧
        (hasScheme u.OriginalURL = true →
          (redirect h resolve code now w).1.location
            = some (hexEscapeNonASCII u.OriginalURL)) ∧
        (hasScheme u.OriginalURL = true → (∀ c ∈ u.OriginalURL.toList, c.toNat < 128) →
          (redirect h resolve code now w).1.location = some u.OriginalURL) ∧
        dispatched (redirect h resolve code now w).2.trace = dispatched w.trace ++ [u.ID] ∧
        (redirect h resolve code now w).2.db = w.db) ∧
    (u.ExpiresAt = some (now.Add (-1 * Second)) →
      (redirect h resolve code now w).1.status = 410 ∧
        (redirect h resolve code now w).1.body = .expired "link expired" u.OriginalURL) ∧
    (u.ExpiresAt = some (now.Add (3600 * Second)) →
      (redirect h resolve code now w).1.status = 307 ∧
        (redirect h resolve code now w).1.location
          = some (hexEscapeNonASCII (redirectTarget resolve u.OriginalURL))) := by
  rw [redirect_found h resolve code now w u hlen hget]
  refine ⟨?_, ?_, ?_, ?_⟩
  · rintro ⟨e, he, hlt⟩
    have hexp : isExpired now u = true := by simp [isExpired, he, Time.After, hlt]
    rw [if_pos hexp]
    exact ⟨rfl, by simp [dispatched_append, dispatched], rfl⟩
  · intro hno
    have hexp : ¬ isExpired now u = true := by
      intro hx
      cases hu : u.ExpiresAt with
      | none => simp [isExpired, hu] at hx
      | some e =>
        simp only [isExpired, hu, Time.After, decide_eq_true_eq] at hx
        exact hno ⟨e, hu, hx⟩
    rw [if_neg hexp]
    refine ⟨rfl, rfl, ?_, ?_, by simp [dispatched_append, dispatched], rfl⟩
    · intro hs
      simp only [Redirect, redirectTarget_of_scheme resolve u.OriginalURL hs]
    · intro hs hascii
      exact Redirect_location_of_ascii resolve _ u.OriginalURL hs hascii
  · intro hu
    have hexp : isExpired now u = true := by
      simp [isExpired, hu, Time.After, Time.Add, Second]
    rw [if_pos hexp]
    exact ⟨rfl, rfl⟩
  · intro hu
    have hexp : ¬ isExpired now u = true := by
      simp [isExpired, hu, Time.After, Time.Add, Second]
    rw [if_neg hexp]
    exact ⟨rfl, rfl⟩

theorem sampleRows_get : tableRepo.GetByShortCode sampleRows "abcde"
    = .ok { ID := 1, ShortCode := "abcde", OriginalURL := "https://go.dev",
            CreatedAt := Time.zero, UpdatedAt := Time.zero, ExpiresAt := none,
            ClickCount := 0 } := by
  rfl

theorem expiredRows_get : tableRepo.GetByShortCode expiredRows "fghij"
    = .ok { ID := 7, ShortCode := "fghij", OriginalURL := "https://go.dev/doc",
            CreatedAt := Time.zero, UpdatedAt := Time.zero,
            ExpiresAt := some (sampleNow.Add (-1 * Second)), ClickCount := 3 } := by
  rfl

theorem redirect_expiry_witness :
    ("abcde".utf8ByteSize = shortCodeLength ∧ "fghij".utf8ByteSize = shortCodeLength ∧
      hasScheme "https://go.dev" = true ∧ ∀ c ∈ "https://go.dev".toList, c.toNat < 128) ∧
    ((redirect sampleHandler id "abcde" sampleNow ⟨sampleRows, [], []⟩).1.status = 307 ∧
      (redirect sampleHandler id "abcde" sampleNow ⟨sampleRows, [], []⟩).1.location
        = some "https://go.dev" ∧
      dispatched (redirect sampleHandler id "abcde" sampleNow ⟨sampleRows, [], []⟩).2.trace
        = [] ++ [1] ∧
      (redirect sampleHandler id "abcde" sampleNow ⟨sampleRows, [], []⟩).2.db = sampleRows) ∧
    ((redirect sampleHandler id "fghij" sampleNow ⟨expiredRows, [], []⟩).1.status = 410 ∧
      (redirect sampleHandler id "fghij" sampleNow ⟨expiredRows, [], []⟩).1.body
        = .expired "link expired" "https://go.dev/doc") :=
  ⟨⟨by decide, by decide, by decide, by decide⟩,
    match (redirect_expiry sampleHandler id "abcde" sampleNow ⟨sampleRows, [], []⟩ _ (by decide)
      sampleRows_get).2.1 (by rintro ⟨e, he, -⟩; cases he) with
    | ⟨hstatus, _, _, hloc, hdisp, hdb⟩ => ⟨hstatus, hloc (by decide) (by decide), hdisp, hdb⟩,
    (redirect_expiry sampleHandler id "fghij" sampleNow ⟨expiredRows, [], []⟩ _ (by decide)
      expiredRows_get).2.2.1 rfl⟩

/-- C6, as stated, fails for a row whose URL has a character outside ASCII: the row `fghij` of
`cafeRows` has no expiry and the URL `https://example.com/café`; `redirect` answers 307 with
`Location` `https://example.com/caf%c3%a9`, which is not the row's URL. -/
theorem expiry_location_differs_nonASCII :
    tableRepo.GetByShortCode cafeRows "fghij"
      = .ok { ID := 9, ShortCode := "fghij", OriginalURL := "https://example.com/café",
              CreatedAt := Time.zero, UpdatedAt := Time.zero, ExpiresAt := none,
              ClickCount := 0 } ∧
    (redirect sampleHandler id "fghij" sampleNow ⟨cafeRows, [], []⟩).1.status = 307 ∧
    (redirect sampleHandler id "fghij" sampleNow ⟨cafeRows, [], []⟩).1.location
      = some "https://example.com/caf%c3%a9" ∧
    ¬ ((redirect sampleHandler id "fghij" sampleNow ⟨cafeRows, [], []⟩).1.location
      = some "https://example.com/café") := by
  refine ⟨rfl, rfl, rfl, ?_⟩
  decide

/-- C7. For every code whose length in bytes is not 5, `redirect` answers 404 and leaves the
world as it was: no store lookup and no click increment is made, whatever the store holds. -/
theorem redirect_wrong_length {σ : Type} (h : Handler σ) (resolve : String → String)
    (code : String) (now : Time) (w : World σ) (hlen : code.utf8ByteSize ≠ shortCodeLength) :
    redirect h resolve code now w = (jsonError StatusNotFound "not found", w) ∧
      (redirect h resolve code now w).1.status = 404 ∧
      countLookup (redirect h resolve code now w).2.trace = countLookup w.trace ∧
      dispatched (redirect h resolve code now w).2.trace = dispatched w.trace := by
  have hrun : redirect h resolve code now w = (jsonError StatusNotFound "not found", w) := by
    simp only [redirect, if_pos hlen]
  rw [hrun]
  exact ⟨rfl, rfl, rfl, rfl⟩

theorem redirect_wrong_length_witness :
    ("ab".utf8ByteSize ≠ shortCodeLength ∧ "toolongcode".utf8ByteSize ≠ shortCodeLength ∧
      "".utf8ByteSize ≠ shortCodeLength) ∧
    (redirect sampleHandler id "ab" sampleNow ⟨sampleRows, [], []⟩).1.status = 404 ∧
    (redirect sampleHandler id "toolongcode" sampleNow ⟨sampleRows, [], []⟩).1.status = 404 ∧
    (redirect sampleHandler id "" sampleNow ⟨sampleRows, [], []⟩).1.status = 404 :=
  ⟨⟨by decide, by decide, by decide⟩,
    (redirect_wrong_length sampleHandler id "ab" sampleNow ⟨sampleRows, [], []⟩
      (by decide)).2.1,
    (redirect_wrong_length sampleHandler id "toolongcode" sampleNow ⟨sampleRows, [], []⟩
      (by decide)).2.1,
    (redirect_wrong_length sampleHandler id "" sampleNow ⟨sampleRows, [], []⟩ (by decide)).2.1⟩

/-! ## Expiry arithmetic -/

/-- Up to 9223372036 seconds the product `s * 1_000_000_000` fits in an `int64`. -/
theorem durationSeconds_in_range (s : Int) (h0 : 0 < s) (h1 : s ≤ 9223372036) :
    durationSeconds s = s * 1000000000 := by
  simp only [durationSeconds, wrapInt64, Second]
  have hmod : (s * 1000000000 + 2 ^ 63) % 2 ^ 64 = s * 1000000000 + 2 ^ 63 :=
    Int.emod_eq_of_lt (by omega) (by omega)
  rw [hmod]
  omega

/-- Within the range where the product does not overflow, the expiry is `s` seconds after
`now`; a request without `expires_in_seconds`, or with a value that is not positive, gets no
expiry. -/
theorem computeExpiresAt_in_range (now : Time) :
    (∀ s : Int, 0 < s → s ≤ 9223372036 →
      computeExpiresAt now (some s) = some ⟨now.unixNano + s * 1000000000⟩ ∧
        now.unixNano < now.unixNano + s * 1000000000) ∧
    (∀ s : Int, s ≤ 0 → computeExpiresAt now (some s) = none) ∧
    computeExpiresAt now none = none := by
  refine ⟨?_, ?_, rfl⟩
  · intro s h0 h1
    refine ⟨?_, by omega⟩
    simp only [computeExpiresAt, if_pos h0, Time.Add, durationSeconds_in_range s h0 h1]
  · intro s hs
    have hneg : ¬ s > 0 := by omega
    simp only [computeExpiresAt, if_neg hneg]

/-- C8. At `expires_in_seconds = 9223372037`, a positive 64-bit integer, the `int64` product
`s * 1_000_000_000` wraps to `-9223372036709551616` nanoseconds, so the expiry handed to the
store is about 292 years before `now` and not `now + s` seconds: the request is answered 201
with that expiry, and a redirect on the new code one second later answers 410. -/
theorem computeExpiresAt_overflow :
    ((0 : Int) < 9223372037 ∧ (9223372037 : Int) < 2 ^ 63) ∧
    durationSeconds 9223372037 = -9223372036709551616 ∧
    (∀ now : Time, computeExpiresAt now (some 9223372037)
      = some ⟨now.unixNano - 9223372036709551616⟩) ∧
    (∀ now : Time, computeExpiresAt now (some 9223372037)
      ≠ some ⟨now.unixNano + 9223372037 * 1000000000⟩) ∧
    (∀ now : Time, ∃ e, computeExpiresAt now (some 9223372037) = some e ∧
      e.unixNano < now.unixNano) ∧
    (createShortURL sampleHandler (.ok ⟨"https://example.com", some 9223372037⟩) sampleNow
        ⟨[], sampleTape, []⟩).1
      = { status := 201,
          body := .created
            { ShortURL := "http://localhost:8080/abcde", ShortCode := "abcde",
              OriginalURL := "https://example.com",
              ExpiresAt := some ⟨1762000000000000000 - 9223372036709551616⟩ },
          location := none } ∧
    (redirect sampleHandler id "abcde" (sampleNow.Add Second)
        (createShortURL sampleHandler (.ok ⟨"https://example.com", some 9223372037⟩) sampleNow
          ⟨[], sampleTape, []⟩).2).1
      = { status := 410, body := .expired "link expired" "https://example.com",
          location := none } := by
  have hdur : durationSeconds 9223372037 = -9223372036709551616 := by decide
  have hexp : ∀ now : Time, computeExpiresAt now (some 9223372037)
      = some ⟨now.unixNano - 9223372036709551616⟩ := by
    intro now
    simp only [computeExpiresAt, Time.Add, hdur]
    rfl
  refine ⟨⟨by decide, by decide⟩, hdur, hexp, ?_, ?_, ?_, ?_⟩
  · intro now hcontra
    rw [hexp now] at hcontra
    have := congrArg Time.unixNano (Option.some.inj hcontra)
    simp only at this
    omega
  · intro now
    exact ⟨_, hexp now, by simp⟩
  · rfl
  · rfl

/-! ## The encoding and its bias -/

/-- C9. For every tape that can fill the buffer and every position `i < 5`, `generateShortCode`
succeeds, takes exactly `2 * 5 = 10` bytes off the tape, and character `i` of its result is
`alphabet[(256 * b[2i] + b[2i+1]) mod 62]`, where `b` is the 10 bytes read; that index is within
the bounds of `alphabet`. -/
theorem generateShortCode_chars (tape : List Byte) (i : Nat)
    (htape : shortCodeLength * 2 ≤ tape.length) (hi : i < shortCodeLength) :
    ∃ code,
      generateShortCode tape = (.ok code, tape.drop (2 * shortCodeLength)) ∧
      2 * shortCodeLength = 10 ∧
      (256 * ((tape.take 10).getD (2 * i) 0).val + ((tape.take 10).getD (2 * i + 1) 0).val) % 62
        < alphabet.toList.length ∧
      code.toList[i]?
        = alphabet.toList[(256 * ((tape.take 10).getD (2 * i) 0).val
            + ((tape.take 10).getD (2 * i + 1) 0).val) % 62]? := by
  have h10 : shortCodeLength * 2 = 10 := rfl
  have hlen : (tape.take (shortCodeLength * 2)).length = shortCodeLength * 2 := by
    rw [List.length_take]; omega
  refine ⟨encode (tape.take (shortCodeLength * 2)), ?_, rfl, ?_, ?_⟩
  · rw [generateShortCode_ok tape htape, Nat.mul_comm 2]
  · rw [alphabet_length]; exact Nat.mod_lt _ (by decide)
  · rw [encode_getElem? _ hlen i hi, h10]

theorem generateShortCode_chars_witness :
    (shortCodeLength * 2 ≤ sampleTape.length ∧ 2 < shortCodeLength) ∧
    ∃ code,
      generateShortCode sampleTape = (.ok code, sampleTape.drop (2 * shortCodeLength)) ∧
      2 * shortCodeLength = 10 ∧
      (256 * ((sampleTape.take 10).getD (2 * 2) 0).val
        + ((sampleTape.take 10).getD (2 * 2 + 1) 0).val) % 62 < alphabet.toList.length ∧
      code.toList[2]?
        = alphabet.toList[(256 * ((sampleTape.take 10).getD (2 * 2) 0).val
            + ((sampleTape.take 10).getD (2 * 2 + 1) 0).val) % 62]? :=
  ⟨⟨by decide, by decide⟩, generateShortCode_chars sampleTape 2 (by decide) (by decide)⟩

theorem Uint16_lt (b : List Byte) : Uint16 b < 65536 := by
  have h1 : (b.getD 1 0).val < 2 ^ 16 := lt_trans (b.getD 1 0).isLt (by decide)
  have h2 : ((b.getD 0 0).val <<< 8) % 65536 < 2 ^ 16 := Nat.mod_lt _ (by decide)
  exact Nat.or_lt_two_pow h1 h2

theorem count_mod_alphabetLen (r : Nat) (hr : r < alphabetLen) :
    Nat.count (fun v => v % alphabetLen = r) 65536 = if r < 2 then 1058 else 1057 := by
  rw [alphabetLen_eq] at hr ⊢
  have hpred : (fun v : Nat => v % 62 = r) = (fun v : Nat => v ≡ r [MOD 62]) := by
    funext v
    simp only [Nat.ModEq, Nat.mod_eq_of_lt hr]
  have hcount : Nat.count (fun v => v % 62 = r) 65536
      = Nat.count (fun v => v ≡ r [MOD 62]) 65536 := by
    simp only [hpred]
  rw [hcount, Nat.count_modEq_card 65536 (by decide : 0 < 62) r, Nat.mod_eq_of_lt hr]
  split_ifs <;> simp_all

/-- C10. The value reduced modulo the alphabet size is a 16-bit value, and 65536 is not a
multiple of 62: among the 65536 values, every index `r < 62` is the residue of either 1057 or
1058 of them (1058 for `r = 0`, 1057 for `r = 61`), and for every index the relative deviation
of `count / 65536` from `1 / 62` is below 1%. -/
theorem modulo_bias :
    (∀ b : List Byte, Uint16 b < 65536) ∧
    65536 % alphabetLen ≠ 0 ∧
    (∀ r, r < alphabetLen →
      Nat.count (fun v => v % alphabetLen = r) 65536 = 1057 ∨
        Nat.count (fun v => v % alphabetLen = r) 65536 = 1058) ∧
    Nat.count (fun v => v % alphabetLen = 0) 65536 = 1058 ∧
    Nat.count (fun v => v % alphabetLen = 61) 65536 = 1057 ∧
    (∀ r, r < alphabetLen →
      |(Nat.count (fun v => v % alphabetLen = r) 65536 : ℚ) / 65536 - 1 / 62| / (1 / 62)
        < 1 / 100) := by
  refine ⟨Uint16_lt, by decide, ?_, ?_, ?_, ?_⟩
  · intro r hr
    rw [count_mod_alphabetLen r hr]
    split_ifs
    · exact Or.inr rfl
    · exact Or.inl rfl
  · rw [count_mod_alphabetLen 0 (by decide)]; rfl
  · rw [count_mod_alphabetLen 61 (by decide)]; rfl
  · intro r hr
    rw [count_mod_alphabetLen r hr]
    split_ifs
    · rw [div_lt_iff₀ (by norm_num), abs_lt]
      constructor <;> norm_num
    · rw [div_lt_iff₀ (by norm_num), abs_lt]
      constructor <;> norm_num

theorem modulo_bias_witness :
    (0 < alphabetLen ∧ 61 < alphabetLen) ∧
    (Nat.count (fun v => v % alphabetLen = 0) 65536 = 1057 ∨
      Nat.count (fun v => v % alphabetLen = 0) 65536 = 1058) ∧
    |(Nat.count (fun v => v % alphabetLen = 61) 65536 : ℚ) / 65536 - 1 / 62| / (1 / 62)
      < 1 / 100 :=
  ⟨⟨by decide, by decide⟩, modulo_bias.2.2.1 0 (by decide),
    modulo_bias.2.2.2.2.2 61 (by decide)⟩

end Shortener
